import Mathlib

/-!
Verification of the CommAI transcript-analysis heuristics.

Two analysis flows exist in the source:
* `generateSuggestions` (src/App.jsx): the base scorer — regex whole-word
  filler detection, length / sentence-ending / vocabulary / duration checks,
  a fallback affirmation message, and a floor clamp of the score at 0.
* `analyzeTranscript` (the unnamed component): the extended scorer — token
  equality filler detection, repeated-word detection, an optional grammar
  service, a fluency score and a tone label.

Strings are modelled by Lean `String` / `List Char`; JavaScript numbers that
only ever hold small integers are modelled by `Int` (`Nat` for counts).
-/

namespace CommAI

/-! ### JavaScript string primitives -/

/-- Word characters of the JavaScript regex class `\w` = `[A-Za-z0-9_]`. -/
def isWordChar (c : Char) : Bool := c.isAlphanum || c == '_'

def isWordCharOpt : Option Char → Bool
  | none => false
  | some c => isWordChar c

/-- Case-insensitive character equality, as used by a regex `i` flag on the
ASCII filler vocabulary. -/
def charLowerEq (a b : Char) : Bool := a.toLower == b.toLower

/-- Case-insensitive test that `p` matches at the head of `l`. -/
def ciMatchHere : List Char → List Char → Bool
  | [], _ => true
  | _ :: _, [] => false
  | p :: ps, c :: cs => charLowerEq p c && ciMatchHere ps cs

/-- Match of the regex `\b p \b` (with the `i` flag) at position `i` of `t`.
All vocabulary words begin and end with a letter, so the `\b` conditions
reduce to: the neighbouring character (when it exists) is not a word
character. -/
def matchAt (t p : List Char) (i : Nat) : Bool :=
  (i == 0 || !isWordCharOpt (t.get? (i - 1)))
    && ciMatchHere p (t.drop i)
    && !isWordCharOpt (t.get? (i + p.length))

/-- Number of matches found by `text.match(new RegExp("\\b" + w + "\\b", "gi"))`:
a left-to-right scan collecting non-overlapping matches, resuming after the
end of each match. The first argument is fuel; every step advances the
position by at least one, so fuel `t.length` (as supplied by `fillerCount`)
never runs out before the position passes the end of the text. -/
def scanCount (t p : List Char) : Nat → Nat → Nat
  | 0, _ => 0
  | fuel + 1, i =>
    if t.length ≤ i then 0
    else if matchAt t p i then 1 + scanCount t p fuel (i + max p.length 1)
    else scanCount t p fuel (i + 1)

/-- `(text.match(regex) || []).length` for the whole-word regex of `word`. -/
def fillerCount (text word : String) : Nat :=
  scanCount text.data word.data text.data.length 0

/-- `text.split(sep)` for a single-character separator string: pieces between
separator occurrences, empty pieces kept (JavaScript `String.prototype.split`
with a one-character string argument). -/
def splitChar (sep : Char) : List Char → List (List Char)
  | [] => [[]]
  | c :: cs =>
    let r := splitChar sep cs
    if c == sep then [] :: r
    else (c :: r.headD []) :: r.tail

/-- `text.split(/\s+/)`: the separators are the maximal whitespace runs, so
pieces lie between them; a leading or trailing run contributes an empty
piece. A whitespace character ends the current piece only when it is the
last character of its run (the following character, if any, is not
whitespace); earlier characters of a run leave the split unchanged. -/
def nextIsWs (cs : List Char) : Bool := cs.head?.any Char.isWhitespace

def splitWs : List Char → List (List Char)
  | [] => [[]]
  | c :: cs =>
    let r := splitWs cs
    if c.isWhitespace then
      if nextIsWs cs then r else [] :: r
    else (c :: r.headD []) :: r.tail

/-- Case-sensitive test that `p` occurs at the head of `l`. -/
def startsHere : List Char → List Char → Bool
  | _, [] => true
  | [], _ :: _ => false
  | c :: cs, p :: ps => c == p && startsHere cs ps

/-- `text.includes(p)`: case-sensitive substring occurrence. -/
def containsSub : List Char → List Char → Bool
  | [], p => p.isEmpty
  | c :: cs, p => startsHere (c :: cs) p || containsSub cs p

/-! ### The base scorer (`generateSuggestions`, src/App.jsx) -/

/-- The fixed filler vocabulary of the base scorer. -/
def fillerWords : List String :=
  ["uh", "um", "like", "you know", "actually", "basically", "literally"]

/-- The message appended for a detected filler word. -/
def fillerMessage (word : String) (count : Nat) : String :=
  "⚠️ You used \"" ++ word ++ "\" " ++ toString count ++ " time(s). Try reducing it."

def lengthMessage : String := "🗣️ Try speaking in longer sentences with more details."

def punctMessage : String := "✍️ Work on finishing sentences with proper endings."

def goodMessage : String :=
  "💡 Instead of 'good', try 'excellent', 'fantastic', or 'wonderful'."

def durationMessage : String := "⏱️ Try to speak for at least 1 minute for better practice."

def affirmMessage : String := "✅ Great job! Fluent and clear."

/-- `/[.?!]/.test(text)`. -/
def hasTerminalPunct (text : String) : Bool :=
  text.data.any (fun c => c == '.' || c == '?' || c == '!')

/-- `text.includes("good")`. -/
def containsGood (text : String) : Bool := containsSub text.data "good".data

/-- The report returned by the base scorer. `fillerStats` is the JavaScript
object `fillerStats` read as an association list in key-insertion order. -/
structure Report where
  feedback : List String
  score : Int
  fillerStats : List (String × Nat)
deriving DecidableEq, Repr

/-- One iteration of the `fillerWords.forEach` loop of `generateSuggestions`. -/
def fillerStep (text : String) (r : Report) (word : String) : Report :=
  let count := fillerCount text word
  if 0 < count then
    { feedback := r.feedback ++ [fillerMessage word count],
      score := r.score - (if 3 ≤ count then 2 else 1),
      fillerStats := r.fillerStats ++ [(word, count)] }
  else r

/-- `generateSuggestions(text, duration)` from src/App.jsx, as a sequence of
state updates mirroring the source statement by statement. -/
def generateSuggestions (text : String) (duration : Int) : Report :=
  let r0 : Report := { feedback := [], score := 10, fillerStats := [] }
  let r1 := fillerWords.foldl (fillerStep text) r0
  let r2 :=
    if (splitChar ' ' text.data).length < 15 then
      { r1 with feedback := r1.feedback ++ [lengthMessage], score := r1.score - 2 }
    else r1
  let r3 :=
    if hasTerminalPunct text then r2
    else { r2 with feedback := r2.feedback ++ [punctMessage], score := r2.score - 1 }
  let r4 :=
    if containsGood text then
      { r3 with feedback := r3.feedback ++ [goodMessage] }
    else r3
  let r5 :=
    if duration < 30 then
      { r4 with feedback := r4.feedback ++ [durationMessage], score := r4.score - 1 }
    else r4
  let r6 :=
    if r5.feedback = [] then { r5 with feedback := [affirmMessage] }
    else r5
  { r6 with score := if r6.score < 0 then 0 else r6.score }

/-! ### Closed-form descriptions of the base scorer

These recursions restate the specification's reading of the filler loop —
one message per detected word, 2 points off for a count ≥ 3 and 1 point
otherwise, deductions adding up across words — and are proved below to be
exactly what the fold computes. -/

/-- One filler message per vocabulary word with a positive count, in
vocabulary order. -/
def fillerMsgs (text : String) : List String → List String
  | [] => []
  | w :: ws =>
    (if 0 < fillerCount text w then [fillerMessage w (fillerCount text w)] else [])
      ++ fillerMsgs text ws

/-- Sum of the per-word deductions. -/
def fillerDeduction (text : String) : List String → Int
  | [] => 0
  | w :: ws =>
    (if 0 < fillerCount text w then (if 3 ≤ fillerCount text w then 2 else 1) else 0)
      + fillerDeduction text ws

/-- One histogram entry per vocabulary word with a positive count. -/
def fillerStatsOf (text : String) : List String → List (String × Nat)
  | [] => []
  | w :: ws =>
    (if 0 < fillerCount text w then [(w, fillerCount text w)] else [])
      ++ fillerStatsOf text ws

/-- Every deduction of the base scorer, summed. -/
def totalDeduction (text : String) (duration : Int) : Int :=
  fillerDeduction text fillerWords
    + (if (splitChar ' ' text.data).length < 15 then 2 else 0)
    + (if hasTerminalPunct text then 0 else 1)
    + (if duration < 30 then 1 else 0)

/-- Every message of the base scorer before the fallback step, in emission
order. -/
def allMessages (text : String) (duration : Int) : List String :=
  fillerMsgs text fillerWords
    ++ (if (splitChar ' ' text.data).length < 15 then [lengthMessage] else [])
    ++ (if hasTerminalPunct text then [] else [punctMessage])
    ++ (if containsGood text then [goodMessage] else [])
    ++ (if duration < 30 then [durationMessage] else [])

theorem fillerFold_eq (text : String) :
    ∀ (l : List String) (r : Report),
      l.foldl (fillerStep text) r =
        { feedback := r.feedback ++ fillerMsgs text l,
          score := r.score - fillerDeduction text l,
          fillerStats := r.fillerStats ++ fillerStatsOf text l }
  | [], r => by simp [fillerMsgs, fillerDeduction, fillerStatsOf]
  | w :: ws, r => by
    simp only [List.foldl_cons, fillerFold_eq text ws, fillerStep,
      fillerMsgs, fillerDeduction, fillerStatsOf]
    by_cases h : 0 < fillerCount text w <;>
      simp [h, List.append_assoc, sub_sub]

theorem generateSuggestions_feedback (text : String) (duration : Int) :
    (generateSuggestions text duration).feedback =
      if allMessages text duration = [] then [affirmMessage]
      else allMessages text duration := by
  simp only [generateSuggestions, fillerFold_eq, allMessages]
  by_cases h1 : (splitChar ' ' text.data).length < 15 <;>
  by_cases h2 : hasTerminalPunct text = true <;>
  by_cases h3 : containsGood text = true <;>
  by_cases h4 : duration < 30 <;>
    simp [h1, h2, h3, h4, apply_ite Report.feedback]

theorem generateSuggestions_score (text : String) (duration : Int) :
    (generateSuggestions text duration).score =
      if 10 - totalDeduction text duration < 0 then 0
      else 10 - totalDeduction text duration := by
  simp only [generateSuggestions, fillerFold_eq, totalDeduction]
  by_cases h1 : (splitChar ' ' text.data).length < 15 <;>
  by_cases h2 : hasTerminalPunct text = true <;>
  by_cases h3 : containsGood text = true <;>
  by_cases h4 : duration < 30 <;>
    simp [h1, h2, h3, h4, apply_ite Report.score] <;>
    split_ifs <;> omega

theorem generateSuggestions_stats (text : String) (duration : Int) :
    (generateSuggestions text duration).fillerStats = fillerStatsOf text fillerWords := by
  simp only [generateSuggestions, fillerFold_eq]
  by_cases h1 : (splitChar ' ' text.data).length < 15 <;>
  by_cases h2 : hasTerminalPunct text = true <;>
  by_cases h3 : containsGood text = true <;>
  by_cases h4 : duration < 30 <;>
    simp [h1, h2, h3, h4, apply_ite Report.fillerStats]

/-! ### Facts about the messages of the base scorer -/

theorem fillerMessage_head (w : String) (c : Nat) :
    (fillerMessage w c).data.head? = some '⚠' := rfl

theorem fillerMessage_ne (w : String) (c : Nat) (s : String)
    (h : s.data.head? ≠ some '⚠') : fillerMessage w c ≠ s := by
  intro he
  exact h (he ▸ fillerMessage_head w c)

theorem mem_ite_single {c : Prop} [Decidable c] {x m : String}
    (h : m ∈ if c then [x] else []) : c ∧ m = x := by
  by_cases hc : c
  · rw [if_pos hc] at h
    simp at h
    exact ⟨hc, h⟩
  · rw [if_neg hc] at h
    simp at h

theorem mem_ite_single_neg {c : Prop} [Decidable c] {x m : String}
    (h : m ∈ if c then [] else [x]) : ¬c ∧ m = x := by
  by_cases hc : c
  · rw [if_pos hc] at h
    simp at h
  · rw [if_neg hc] at h
    simp at h
    exact ⟨hc, h⟩

theorem fillerMsgs_eq_nil (text : String) :
    ∀ l : List String, (fillerMsgs text l = [] ↔ ∀ w ∈ l, fillerCount text w = 0)
  | [] => by simp [fillerMsgs]
  | w :: ws => by
    by_cases hp : 0 < fillerCount text w
    · simp only [fillerMsgs, if_pos hp]
      constructor
      · intro h
        simp at h
      · intro h
        exact absurd (h w (by simp)) (by omega)
    · simp only [fillerMsgs, if_neg hp, List.nil_append]
      rw [fillerMsgs_eq_nil text ws]
      constructor
      · intro h x hx
        rcases List.mem_cons.mp hx with rfl | hx'
        · omega
        · exact h x hx'
      · intro h x hx
        exact h x (List.mem_cons_of_mem _ hx)

theorem mem_fillerMsgs (text : String) :
    ∀ (l : List String) (m : String), m ∈ fillerMsgs text l →
      ∃ w ∈ l, 0 < fillerCount text w ∧ m = fillerMessage w (fillerCount text w)
  | [], m => by simp [fillerMsgs]
  | w :: ws, m => by
    intro hm
    by_cases hp : 0 < fillerCount text w
    · rw [fillerMsgs, if_pos hp] at hm
      rcases List.mem_append.mp hm with hm1 | hm2
      · exact ⟨w, by simp, hp, by simpa using hm1⟩
      · obtain ⟨x, hx, hpx, hmx⟩ := mem_fillerMsgs text ws m hm2
        exact ⟨x, List.mem_cons_of_mem _ hx, hpx, hmx⟩
    · rw [fillerMsgs, if_neg hp, List.nil_append] at hm
      obtain ⟨x, hx, hpx, hmx⟩ := mem_fillerMsgs text ws m hm
      exact ⟨x, List.mem_cons_of_mem _ hx, hpx, hmx⟩

theorem affirm_not_mem_allMessages (text : String) (duration : Int) :
    affirmMessage ∉ allMessages text duration := by
  intro hm
  simp only [allMessages, List.mem_append] at hm
  rcases hm with (((h | h) | h) | h) | h
  · obtain ⟨w, _, _, he⟩ := mem_fillerMsgs text _ _ h
    exact absurd he.symm (fillerMessage_ne _ _ _ (by decide))
  · exact absurd (mem_ite_single h).2 (by decide)
  · exact absurd (mem_ite_single_neg h).2 (by decide)
  · exact absurd (mem_ite_single h).2 (by decide)
  · exact absurd (mem_ite_single h).2 (by decide)

theorem length_mem_allMessages (text : String) (duration : Int) :
    lengthMessage ∈ allMessages text duration ↔ (splitChar ' ' text.data).length < 15 := by
  constructor
  · intro hm
    simp only [allMessages, List.mem_append] at hm
    rcases hm with (((h | h) | h) | h) | h
    · obtain ⟨w, _, _, he⟩ := mem_fillerMsgs text _ _ h
      exact absurd he.symm (fillerMessage_ne _ _ _ (by decide))
    · exact (mem_ite_single h).1
    · exact absurd (mem_ite_single_neg h).2 (by decide)
    · exact absurd (mem_ite_single h).2 (by decide)
    · exact absurd (mem_ite_single h).2 (by decide)
  · intro h
    simp [allMessages, h]

/-- The `stopRecording` handler stores the previous session state. -/
structure SessionRec where
  text : String
  duration : Int
  feedback : List String
  score : Int
  fillerStats : List (String × Nat)
deriving DecidableEq, Repr

/-- The component state of src/App.jsx that `stopRecording` touches. -/
structure AppState where
  isRecording : Bool
  transcript : String
  timer : Int
  suggestions : List String
  sessionHistory : List SessionRec
deriving DecidableEq, Repr

/-- `stopRecording` from src/App.jsx: runs the scorer on the settled
transcript and timer, publishes the feedback, and pushes a new session record
onto the front of the history. -/
def stopRecording (s : AppState) : AppState :=
  let newSuggestions := generateSuggestions s.transcript s.timer
  { s with
    suggestions := newSuggestions.feedback,
    sessionHistory :=
      { text := s.transcript, duration := s.timer,
        feedback := newSuggestions.feedback,
        score := newSuggestions.score,
        fillerStats := newSuggestions.fillerStats } :: s.sessionHistory,
    isRecording := false }

/-! ### The extended scorer (`analyzeTranscript`, unnamed component) -/

/-- The filler vocabulary of the extended variant. -/
def fillerWordsPro : List String := ["uh", "um", "like", "you know", "actually"]

/-- `w.toLowerCase()` — per-character simple lowercasing (the vocabulary the
result is compared against is plain ASCII, for which `Char.toLower` agrees
with the JavaScript simple case mapping). -/
def jsToLower (w : String) : String := String.mk (w.data.map Char.toLower)

/-- `transcript.split(/\s+/)` as a list of strings. -/
def proWords (transcript : String) : List String :=
  (splitWs transcript.data).map (fun l => String.mk l)

/-- The `fillerCount` counter: one increment per token whose lowercasing is a
member of the vocabulary. -/
def proFillerCount (transcript : String) : Nat :=
  (proWords transcript).countP (fun w => fillerWordsPro.contains (jsToLower w))

/-- `wordFrequency[lw] = (wordFrequency[lw] || 0) + 1` on a JavaScript object:
bump an association list kept in key-insertion order. -/
def bumpKey (m : List (String × Nat)) (k : String) : List (String × Nat) :=
  if m.any (fun p => p.1 == k) then
    m.map (fun p => if p.1 == k then (p.1, p.2 + 1) else p)
  else m ++ [(k, 1)]

/-- The `wordFrequency` object of `analyzeTranscript`. -/
def wordFrequency (transcript : String) : List (String × Nat) :=
  (proWords transcript).foldl (fun m w => bumpKey m (jsToLower w)) []

/-- `repeatedWords`: lowercased tokens of length > 3 occurring more than 3
times. -/
def repeatedWords (transcript : String) : List String :=
  ((wordFrequency transcript).filter (fun p => 3 < p.2 && 3 < p.1.length)).map Prod.fst

/-- A match object delivered by the grammar service: offset, length, message
and the ordered replacement values. -/
structure LTMatch where
  offset : Nat
  length : Nat
  message : String
  replacements : List String
deriving DecidableEq, Repr

/-- One entry of `grammarSuggestions` in the feedback report. -/
structure GrammarSuggestion where
  error : String
  suggestion : String
  message : String
deriving DecidableEq, Repr

/-- The per-match mapping of the grammar adapter:
`{error: transcript.substring(m.offset, m.offset + m.length),
  suggestion: m.replacements[0]?.value || "—", message: m.message}`.
A missing first replacement — and, by JavaScript falsiness of `""`, an empty
first replacement value — maps to the placeholder. -/
def toSuggestion (transcript : String) (m : LTMatch) : GrammarSuggestion :=
  { error := String.mk ((transcript.data.drop m.offset).take m.length),
    suggestion :=
      match m.replacements.head? with
      | none => "—"
      | some v => if v = "" then "—" else v,
    message := m.message }

/-- `fluencyScore`: starts at 10, three conditional deductions, floor clamp
at 0. -/
def fluencyScoreOf (transcript : String) : Int :=
  let s : Int := 10
  let s := if 5 < proFillerCount transcript then s - 2 else s
  let s := if (proWords transcript).length < 10 then s - 2 else s
  let s := if 0 < (repeatedWords transcript).length then s - 1 else s
  if s < 0 then 0 else s

/-- The tone label. The source compares `fillerCount > words.length * 0.1`
in binary floating point; for every token count a JavaScript string can
produce, that comparison agrees with the exact rational condition
`10 * fillerCount > words.length` used here (when the length is a multiple
of 10 the product `length * 0.1` rounds to the exact integer, and otherwise
the rounding error is far smaller than the distance to the nearest integer). -/
def toneOf (transcript : String) : String :=
  if (proWords transcript).length < 10 * proFillerCount transcript then "Hesitant"
  else if 15 < (proWords transcript).length then "Confident"
  else "Neutral"

/-- The feedback report of the extended variant. -/
structure ProReport where
  fillerCount : Nat
  repeatedWords : List String
  grammarSuggestions : List GrammarSuggestion
  fluencyScore : Int
  tone : String
deriving DecidableEq, Repr

/-- The pure computation of `analyzeTranscript`: the grammar fetch is the
injected `grammar` argument (`none` = the call failed in any way and the
`catch` left `grammarSuggestions` empty; `some ms` = the service returned the
match list `ms`). -/
def analyzeReport (transcript : String) (grammar : Option (List LTMatch)) : ProReport :=
  { fillerCount := proFillerCount transcript,
    repeatedWords := repeatedWords transcript,
    grammarSuggestions :=
      match grammar with
      | none => []
      | some ms => ms.map (toSuggestion transcript),
    fluencyScore := fluencyScoreOf transcript,
    tone := toneOf transcript }

/-- The grammar mapping as the specification words it: the error span, the
first replacement value or the placeholder, and the message — where the
placeholder stands in exactly when there is no replacement at all. -/
def specSuggestion (transcript : String) (m : LTMatch) : GrammarSuggestion :=
  { error := String.mk ((transcript.data.drop m.offset).take m.length),
    suggestion := m.replacements.head?.getD "—",
    message := m.message }

/-- One session record of the extended component's history. -/
structure ProSession where
  text : String
  feedback : ProReport
  time : String
deriving DecidableEq, Repr

/-- The component state of the unnamed component that `analyzeTranscript`
touches. -/
structure ProState where
  transcript : String
  feedback : Option ProReport
  history : List ProSession
deriving DecidableEq, Repr

/-- The state transition of `analyzeTranscript`: guard on an empty transcript,
then publish the report, spread the old history before the new record, and
clear the transcript buffer. `time` stands for `new Date().toLocaleTimeString()`. -/
def analyzeTranscriptStep (s : ProState) (grammar : Option (List LTMatch))
    (time : String) : ProState :=
  if s.transcript = "" then s
  else
    let report := analyzeReport s.transcript grammar
    { transcript := "",
      feedback := some report,
      history := s.history ++ [{ text := s.transcript, feedback := report, time := time }] }

/-! ### Sample inputs used by counterexamples and witnesses -/

/-- A transcript satisfying every no-deduction condition of the base scorer
while containing the literal substring "good". -/
def goodText : String :=
  "this speech is good and it has many words one two three four five six seven."

/-- A transcript whose fifteen tokens are separated by newlines: fifteen
whitespace-delimited tokens, but a single piece when split on the space
character. -/
def nlText : String :=
  "um\num\num\na\nb\nc\nd\ne\nf\ng\nh\ni\nj\nk\nl."

/-- A transcript with "um" three times, no other filler word, eighteen
space-separated tokens, terminal punctuation and no "good". -/
def umText : String :=
  "um is a word um is a word um yes one two three four five six seven eight."

/-- A grammar match whose only replacement value is the empty string. -/
def emptyReplMatch : LTMatch :=
  { offset := 0, length := 1, message := "m", replacements := [""] }

/-- An extended-component state holding one earlier session. -/
def proState1 : ProState :=
  { transcript := "hi.",
    feedback := none,
    history := [{ text := "old", feedback := analyzeReport "old" none, time := "t0" }] }

/-- A base-component state with one earlier session. -/
def appState1 : AppState :=
  { isRecording := true, transcript := "hello there.", timer := 40,
    suggestions := [],
    sessionHistory :=
      [{ text := "old", duration := 5, feedback := [], score := 10, fillerStats := [] }] }

/-! ### Further helper lemmas -/

theorem fillerDeduction_nonneg (text : String) :
    ∀ l : List String, 0 ≤ fillerDeduction text l
  | [] => by simp [fillerDeduction]
  | w :: ws => by
    have := fillerDeduction_nonneg text ws
    simp only [fillerDeduction]
    split_ifs <;> omega

theorem totalDeduction_nonneg (text : String) (duration : Int) :
    0 ≤ totalDeduction text duration := by
  have := fillerDeduction_nonneg text fillerWords
  simp only [totalDeduction]
  split_ifs <;> omega

theorem ite_single_eq_nil {c : Prop} [Decidable c] {x : String}
    (h : (if c then [x] else []) = []) : ¬c := by
  intro hc
  rw [if_pos hc] at h
  simp at h

theorem ite_single_eq_nil_neg {c : Prop} [Decidable c] {x : String}
    (h : (if c then [] else [x]) = []) : c := by
  by_cases hc : c
  · exact hc
  · rw [if_neg hc] at h
    simp at h

theorem fillerStatsOf_eq_filter (text : String) :
    ∀ l : List String,
      fillerStatsOf text l
        = (l.filter (fun w => decide (0 < fillerCount text w))).map
            (fun w => (w, fillerCount text w))
  | [] => by simp [fillerStatsOf]
  | w :: ws => by
    by_cases h : 0 < fillerCount text w <;>
      simp [fillerStatsOf, h, fillerStatsOf_eq_filter text ws]

theorem toLower_eq_space {c : Char} (h : c.toLower = ' ') : c = ' ' := by
  unfold Char.toLower at h
  simp only at h
  by_cases hc : c.toNat ≥ 65 ∧ c.toNat ≤ 90
  · rw [if_pos hc] at h
    have h2 := congrArg Char.toNat h
    obtain ⟨h65, h90⟩ := hc
    interval_cases hn : c.toNat <;> simp_all
  · rwa [if_neg hc] at h

/-- No piece produced by the whitespace split contains a whitespace
character. -/
theorem splitWs_no_ws :
    ∀ l : List Char, ∀ piece ∈ splitWs l, ∀ c ∈ piece, c.isWhitespace = false
  | [] => by
    intro piece hp c hc
    simp only [splitWs, List.mem_singleton] at hp
    subst hp
    simp at hc
  | ch :: cs => by
    intro piece hp c hc
    have ih := splitWs_no_ws cs
    simp only [splitWs] at hp
    by_cases hws : ch.isWhitespace = true
    · rw [if_pos hws] at hp
      by_cases hnext : nextIsWs cs = true
      · rw [if_pos hnext] at hp
        exact ih piece hp c hc
      · rw [if_neg hnext] at hp
        rcases List.mem_cons.mp hp with rfl | hp'
        · simp at hc
        · exact ih piece hp' c hc
    · rw [if_neg hws] at hp
      rcases List.mem_cons.mp hp with rfl | hp'
      · rcases List.mem_cons.mp hc with rfl | hc'
        · simpa using hws
        · cases hr : splitWs cs with
          | nil =>
            rw [hr] at hc'
            simp at hc'
          | cons h t =>
            rw [hr] at hc'
            simp only [List.headD_cons] at hc'
            exact ih h (by rw [hr]; exact List.mem_cons_self h t) c hc'
      · cases hr : splitWs cs with
        | nil =>
          rw [hr] at hp'
          simp at hp'
        | cons h t =>
          rw [hr] at hp'
          simp only [List.tail_cons] at hp'
          exact ih piece (by rw [hr]; exact List.mem_cons_of_mem h hp') c hc

/-- No token of the extended variant lowercases to the multi-word phrase
"you know": tokens never contain a space. -/
theorem proWords_ne_youknow (transcript : String) :
    ∀ w ∈ proWords transcript, jsToLower w ≠ "you know" := by
  intro w hw he
  obtain ⟨piece, hpiece, rfl⟩ := List.mem_map.mp hw
  have hd : piece.map Char.toLower = "you know".data := congrArg String.data he
  have hsp : ' ' ∈ piece.map Char.toLower := by
    rw [hd]
    decide
  obtain ⟨c, hc, hcl⟩ := List.mem_map.mp hsp
  have hcs : c = ' ' := toLower_eq_space hcl
  subst hcs
  have hno := splitWs_no_ws transcript.data piece hpiece ' ' hc
  simp at hno

/-! ### The claims -/

/-- C1: for every text and every duration ≥ 0, the base scorer's `score` and
the extended scorer's `fluencyScore` are integers in [0, 10]: each starts at
10, only decreases under the deductions, and is floor-clamped at 0. -/
theorem C1_score_in_range (text : String) (duration : Int)
    (grammar : Option (List LTMatch)) (_hdur : 0 ≤ duration) :
    (0 ≤ (generateSuggestions text duration).score
      ∧ (generateSuggestions text duration).score ≤ 10)
    ∧ (0 ≤ (analyzeReport text grammar).fluencyScore
      ∧ (analyzeReport text grammar).fluencyScore ≤ 10) := by
  constructor
  · rw [generateSuggestions_score]
    have := totalDeduction_nonneg text duration
    split_ifs <;> omega
  · simp only [analyzeReport, fluencyScoreOf]
    split_ifs <;> omega

theorem C1_score_in_range_witness :
    (0 ≤ (generateSuggestions "hello" 0).score
      ∧ (generateSuggestions "hello" 0).score ≤ 10)
    ∧ (0 ≤ (analyzeReport "hello" none).fluencyScore
      ∧ (analyzeReport "hello" none).fluencyScore ≤ 10) :=
  C1_score_in_range "hello" 0 none (by decide)

/-- C2 counterexample: every condition the claim lists holds for this text
and duration — no filler word, sixteen space-separated tokens, terminal
punctuation, duration 30 — yet the messages are not the single affirmation:
the vocabulary tip for "good" is emitted without any deduction. -/
theorem C2_counterexample :
    fillerWords.all (fun w => fillerCount goodText w == 0) = true
    ∧ 15 ≤ (splitChar ' ' goodText.data).length
    ∧ hasTerminalPunct goodText = true
    ∧ (generateSuggestions goodText 30).feedback ≠ [affirmMessage] := by
  decide

/-- C2 amended: the messages equal the single affirmation exactly when no
message-producing condition holds — no filler word detected, at least 15
space-separated tokens, terminal punctuation present, the text does not
contain the substring "good", and duration ≥ 30. -/
theorem C2_fallback (text : String) (duration : Int) :
    (generateSuggestions text duration).feedback = [affirmMessage]
      ↔ ((∀ w ∈ fillerWords, fillerCount text w = 0)
          ∧ 15 ≤ (splitChar ' ' text.data).length
          ∧ hasTerminalPunct text = true
          ∧ containsGood text = false
          ∧ 30 ≤ duration) := by
  rw [generateSuggestions_feedback]
  constructor
  · intro h
    by_cases hnil : allMessages text duration = []
    · simp only [allMessages] at hnil
      rw [List.append_eq_nil, List.append_eq_nil, List.append_eq_nil,
        List.append_eq_nil] at hnil
      refine ⟨(fillerMsgs_eq_nil text fillerWords).mp hnil.1.1.1.1, ?_, ?_, ?_, ?_⟩
      · exact Nat.not_lt.mp (ite_single_eq_nil hnil.1.1.1.2)
      · exact ite_single_eq_nil_neg hnil.1.1.2
      · simpa using ite_single_eq_nil hnil.1.2
      · exact not_lt.mp (ite_single_eq_nil hnil.2)
    · rw [if_neg hnil] at h
      have hmem : affirmMessage ∈ allMessages text duration := by
        rw [h]
        simp
      exact absurd hmem (affirm_not_mem_allMessages text duration)
  · rintro ⟨h1, h2, h3, h4, h5⟩
    have hnil : allMessages text duration = [] := by
      simp only [allMessages]
      rw [(fillerMsgs_eq_nil text fillerWords).mpr h1]
      simp [Nat.not_lt.mpr h2, h3, h4, not_lt.mpr h5]
    rw [if_pos hnil]

/-- C3 counterexample: this text contains "um" three times and no other
filler word, has fifteen whitespace-delimited tokens, terminal punctuation,
no "good", and is scored with duration 45 — yet the score is not 8, because
the code splits on the space character and also applies the short-speech
deduction. -/
theorem C3_counterexample :
    fillerCount nlText "um" = 3
    ∧ fillerWords.all (fun w => w == "um" || fillerCount nlText w == 0) = true
    ∧ 15 ≤ (splitWs nlText.data).length
    ∧ hasTerminalPunct nlText = true
    ∧ containsGood nlText = false
    ∧ (generateSuggestions nlText 45).score ≠ 8 := by
  decide

/-- C3 amended: each detected filler word contributes exactly one message and
a deduction of 2 when its count is ≥ 3 and of 1 otherwise, the deductions
adding up across the vocabulary; and for any text with "um" exactly three
times, no other filler word, at least 15 space-separated tokens, terminal
punctuation, no "good", and duration ≥ 30, the score is 8 and the messages
are exactly the one filler message for "um". -/
theorem C3_filler_deductions (text : String) (duration : Int) :
    ((fillerWords.foldl (fillerStep text)
          { feedback := [], score := 10, fillerStats := [] }).feedback
        = fillerMsgs text fillerWords
      ∧ (fillerWords.foldl (fillerStep text)
          { feedback := [], score := 10, fillerStats := [] }).score
        = 10 - fillerDeduction text fillerWords)
    ∧ (fillerCount text "um" = 3 →
        (∀ w ∈ fillerWords, w ≠ "um" → fillerCount text w = 0) →
        15 ≤ (splitChar ' ' text.data).length →
        hasTerminalPunct text = true →
        containsGood text = false →
        30 ≤ duration →
        (generateSuggestions text duration).score = 8
          ∧ (generateSuggestions text duration).feedback
              = [fillerMessage "um" 3]) := by
  constructor
  · rw [fillerFold_eq]
    exact ⟨by simp, by simp⟩
  · intro hum hothers hlen hpunct hgood hdur
    have huh : fillerCount text "uh" = 0 :=
      hothers "uh" (by simp [fillerWords]) (by decide)
    have hlike : fillerCount text "like" = 0 :=
      hothers "like" (by simp [fillerWords]) (by decide)
    have hyk : fillerCount text "you know" = 0 :=
      hothers "you know" (by simp [fillerWords]) (by decide)
    have hact : fillerCount text "actually" = 0 :=
      hothers "actually" (by simp [fillerWords]) (by decide)
    have hbas : fillerCount text "basically" = 0 :=
      hothers "basically" (by simp [fillerWords]) (by decide)
    have hlit : fillerCount text "literally" = 0 :=
      hothers "literally" (by simp [fillerWords]) (by decide)
    have hded : fillerDeduction text fillerWords = 2 := by
      simp [fillerDeduction, fillerWords, huh, hum, hlike, hyk, hact, hbas, hlit]
    have htot : totalDeduction text duration = 2 := by
      simp [totalDeduction, hded, Nat.not_lt.mpr hlen, hpunct, not_lt.mpr hdur]
    have hmsgs : fillerMsgs text fillerWords = [fillerMessage "um" 3] := by
      simp [fillerMsgs, fillerWords, huh, hum, hlike, hyk, hact, hbas, hlit]
    constructor
    · rw [generateSuggestions_score, htot]
      norm_num
    · rw [generateSuggestions_feedback]
      have hall : allMessages text duration = [fillerMessage "um" 3] := by
        simp [allMessages, hmsgs, Nat.not_lt.mpr hlen, hpunct, hgood, not_lt.mpr hdur]
      rw [hall]
      simp

theorem C3_filler_deductions_witness :
    (generateSuggestions umText 45).score = 8
      ∧ (generateSuggestions umText 45).feedback = [fillerMessage "um" 3] :=
  (C3_filler_deductions umText 45).2 (by decide) (by decide) (by decide)
    (by decide) (by decide) (by decide)

/-- C4 counterexample: a text whose fifteen tokens are separated by newlines
has at least 15 whitespace-delimited tokens, yet the encouragement message is
still produced, because the code splits on the space character only. -/
theorem C4_counterexample :
    15 ≤ (splitWs nlText.data).length
    ∧ lengthMessage ∈ (generateSuggestions nlText 45).feedback := by
  decide

/-- C4 amended: the length check splits the text on the single space
character; exactly when the resulting piece count is < 15 does the
encouragement message appear (exactly once), and the score carries the
corresponding 2-point deduction inside the total. -/
theorem C4_length_check (text : String) (duration : Int) :
    ((generateSuggestions text duration).feedback.count lengthMessage
        = if (splitChar ' ' text.data).length < 15 then 1 else 0)
    ∧ (generateSuggestions text duration).score
        = (if 10 - totalDeduction text duration < 0 then 0
           else 10 - totalDeduction text duration) := by
  refine ⟨?_, generateSuggestions_score text duration⟩
  rw [generateSuggestions_feedback]
  have hA : (fillerMsgs text fillerWords).count lengthMessage = 0 := by
    rw [List.count_eq_zero]
    intro hmem
    obtain ⟨w, _, _, he⟩ := mem_fillerMsgs text _ _ hmem
    exact (fillerMessage_ne _ _ _ (by decide)) he.symm
  by_cases hnil : allMessages text duration = []
  · rw [if_pos hnil]
    have hshort : ¬((splitChar ' ' text.data).length < 15) := by
      simp only [allMessages] at hnil
      rw [List.append_eq_nil, List.append_eq_nil, List.append_eq_nil,
        List.append_eq_nil] at hnil
      exact ite_single_eq_nil hnil.1.1.1.2
    rw [if_neg hshort]
    decide
  · rw [if_neg hnil]
    simp only [allMessages, List.count_append, hA]
    by_cases h1 : (splitChar ' ' text.data).length < 15 <;>
    by_cases h2 : hasTerminalPunct text = true <;>
    by_cases h3 : containsGood text = true <;>
    by_cases h4 : duration < 30 <;>
      simp [h1, h2, h3, h4,
        show ([lengthMessage] : List String).count lengthMessage = 1 from by decide,
        show ([punctMessage] : List String).count lengthMessage = 0 from by decide,
        show ([goodMessage] : List String).count lengthMessage = 0 from by decide,
        show ([durationMessage] : List String).count lengthMessage = 0 from by decide]

/-- C5: the filler histogram of the base scorer holds exactly the vocabulary
words with a positive whole-word match count, in vocabulary order, each
mapped to its match count — words with zero matches are absent. -/
theorem C5_histogram (text : String) (duration : Int) :
    (generateSuggestions text duration).fillerStats
      = (fillerWords.filter (fun w => decide (0 < fillerCount text w))).map
          (fun w => (w, fillerCount text w)) := by
  rw [generateSuggestions_stats]
  exact fillerStatsOf_eq_filter text fillerWords

/-- C6: the messages of the base scorer are the filler messages in vocabulary
iteration order, then the length message, the sentence-ending message, the
vocabulary tip and the duration message, with the affirmation exactly when
that list is empty. -/
theorem C6_message_order (text : String) (duration : Int) :
    (generateSuggestions text duration).feedback
      = if allMessages text duration = [] then [affirmMessage]
        else allMessages text duration :=
  generateSuggestions_feedback text duration

/-- C7: the tone label is "Hesitant" exactly when the filler count exceeds
10% of the token count, else "Confident" exactly when more than 15 tokens,
else "Neutral"; the filler count counts tokens whose lowercasing is in the
closed vocabulary, and no token ever equals the multi-word phrase
"you know". -/
theorem C7_tone (transcript : String) (grammar : Option (List LTMatch)) :
    (analyzeReport transcript grammar).tone
      = (if (proWords transcript).length
            < 10 * (analyzeReport transcript grammar).fillerCount
          then "Hesitant"
          else if 15 < (proWords transcript).length then "Confident"
          else "Neutral")
    ∧ (analyzeReport transcript grammar).fillerCount
        = ((proWords transcript).filter
            (fun w => fillerWordsPro.contains (jsToLower w))).length
    ∧ (proWords transcript).all (fun w => !(jsToLower w == "you know")) = true := by
  refine ⟨rfl, ?_, ?_⟩
  · simp only [analyzeReport, proFillerCount]
    exact List.countP_eq_length_filter _ _
  · simp only [List.all_eq_true]
    intro w hw
    simpa using proWords_ne_youknow transcript w hw

/-- C8 counterexample: for a match whose only replacement value is the empty
string, the code maps the suggestion to the placeholder "—", not to the
first replacement value as the claim's mapping states. -/
theorem C8_counterexample :
    (analyzeReport "hi." (some [emptyReplMatch])).grammarSuggestions
      ≠ [specSuggestion "hi." emptyReplMatch] := by decide

/-- C8 amended: on any failure the report still carries an empty suggestion
list and the same fluency score as with zero matches; on success each match
maps to the span [offset, offset+length), the first replacement value — with
the placeholder "—" both when there is no replacement and when the first
replacement value is the empty string — and the match's message. -/
theorem C8_amended (transcript : String) (ms : List LTMatch) :
    (analyzeReport transcript none).grammarSuggestions = []
    ∧ (analyzeReport transcript none).fluencyScore
        = (analyzeReport transcript (some [])).fluencyScore
    ∧ (analyzeReport transcript (some ms)).grammarSuggestions
        = ms.map (fun m =>
            { error := String.mk ((transcript.data.drop m.offset).take m.length),
              suggestion :=
                match m.replacements.head? with
                | none => "—"
                | some v => if v = "" then "—" else v,
              message := m.message }) :=
  ⟨rfl, rfl, rfl⟩

/-- C9 counterexample: in the extended flow the record of the new analysis is
not placed at the front of the history — the front still holds the earlier
session. -/
theorem C9_counterexample :
    (analyzeTranscriptStep proState1 none "t1").history.head?
      ≠ some { text := "hi.", feedback := analyzeReport "hi." none, time := "t1" } := by
  decide

/-- C9 amended: the base flow prepends the new session record, so its history
is most-recent-first with the previous records unchanged behind it; the
extended flow instead appends the new record at the end, leaving the previous
records unchanged in front of it (most-recent-last). -/
theorem C9_amended (s : AppState) (ps : ProState) (g : Option (List LTMatch))
    (tm : String) :
    (stopRecording s).sessionHistory
      = { text := s.transcript, duration := s.timer,
          feedback := (generateSuggestions s.transcript s.timer).feedback,
          score := (generateSuggestions s.transcript s.timer).score,
          fillerStats := (generateSuggestions s.transcript s.timer).fillerStats }
          :: s.sessionHistory
    ∧ (ps.transcript ≠ "" →
        (analyzeTranscriptStep ps g tm).history
          = ps.history
              ++ [{ text := ps.transcript, feedback := analyzeReport ps.transcript g,
                    time := tm }]) := by
  constructor
  · rfl
  · intro h
    simp [analyzeTranscriptStep, h]

theorem C9_amended_witness :
    (stopRecording appState1).sessionHistory
      = { text := appState1.transcript, duration := appState1.timer,
          feedback := (generateSuggestions appState1.transcript appState1.timer).feedback,
          score := (generateSuggestions appState1.transcript appState1.timer).score,
          fillerStats :=
            (generateSuggestions appState1.transcript appState1.timer).fillerStats }
          :: appState1.sessionHistory
    ∧ (analyzeTranscriptStep proState1 none "t1").history
        = proState1.history
            ++ [{ text := proState1.transcript,
                  feedback := analyzeReport proState1.transcript none, time := "t1" }] :=
  ⟨(C9_amended appState1 proState1 none "t1").1,
   (C9_amended appState1 proState1 none "t1").2 (by decide)⟩

/-- C10: with an empty transcript `analyzeTranscript` returns immediately and
the state is untouched; with a non-empty transcript the transcript buffer is
cleared while the report is published and the session is recorded. -/
theorem C10_transcript_reset (s : ProState) (g : Option (List LTMatch))
    (tm : String) :
    (s.transcript = "" → analyzeTranscriptStep s g tm = s)
    ∧ (s.transcript ≠ "" →
        (analyzeTranscriptStep s g tm).transcript = ""
        ∧ (analyzeTranscriptStep s g tm).feedback
            = some (analyzeReport s.transcript g)
        ∧ (analyzeTranscriptStep s g tm).history
            = s.history
                ++ [{ text := s.transcript, feedback := analyzeReport s.transcript g,
                      time := tm }]) := by
  constructor
  · intro h
    simp [analyzeTranscriptStep, h]
  · intro h
    simp [analyzeTranscriptStep, h]

theorem C10_transcript_reset_witness :
    (analyzeTranscriptStep { transcript := "", feedback := none, history := [] } none "t"
        = { transcript := "", feedback := none, history := [] })
    ∧ (analyzeTranscriptStep proState1 none "t").transcript = "" :=
  ⟨(C10_transcript_reset { transcript := "", feedback := none, history := [] } none "t").1
      rfl,
   ((C10_transcript_reset proState1 none "t").2 (by decide)).1⟩

end CommAI
